import Mathlib

/-!
Verification development for the psych-research-data-toolkit (PRDT)
Reliability & Scoring Analytics Engine.

The definitions below are a shallow embedding of `src/prdt/stats.py`,
`src/prdt/scales.py`, `src/prdt/phi.py` and the drift / alert helpers of
`src/prdt/cli.py`.  Python floats are modelled as rationals (`ℚ`), missing
values (`NaN` after `pd.to_numeric(errors="coerce")`, or absent cells) as
`Option.none`, and a pandas `DataFrame` as a header plus row-major cells.
-/

/-- A cell of a dataset: numeric, text, or missing (`NaN`). -/
inductive Value where
  | num (q : ℚ)
  | str (s : String)
  | missing
deriving DecidableEq, Repr

/-- Digits of a decimal literal folded to a natural number. -/
def natOfDigits (l : List Char) : Nat :=
  l.foldl (fun a c => a * 10 + (c.toNat - Char.toNat '0')) 0

/-- Surrounding-whitespace strip on a character list (Python `str.strip`). -/
def trimChars (l : List Char) : List Char :=
  ((l.dropWhile Char.isWhitespace).reverse.dropWhile Char.isWhitespace).reverse

/-- Parse a decimal numeral the way Python's `float(...)` does for plain
decimal forms: optional surrounding whitespace, optional sign, digits with an
optional single decimal point (scientific notation, `inf`/`nan` and digit
underscores are outside the fragment exercised by this code base and are
rejected here).  The value `i.f` is assembled as the exact rational
`(i * 10^k + f) / 10^k`.  Returns `none` where Python raises `ValueError`. -/
def parseFloat (s : String) : Option ℚ :=
  let cs := trimChars s.toList
  let (neg, body) :=
    match cs with
    | '+' :: t => (false, t)
    | '-' :: t => (true, t)
    | t => (false, t)
  let intDigits := body.takeWhile Char.isDigit
  let rest := body.dropWhile Char.isDigit
  let build : Nat → Nat → Option ℚ := fun num pow =>
    some (mkRat (if neg then -(num : Int) else (num : Int)) (10 ^ pow))
  match rest with
  | [] =>
      if intDigits.isEmpty then none
      else build (natOfDigits intDigits) 0
  | '.' :: fracPart =>
      let fracDigits := fracPart.takeWhile Char.isDigit
      if fracPart.dropWhile Char.isDigit ≠ [] then none
      else if intDigits.isEmpty ∧ fracDigits.isEmpty then none
      else build (natOfDigits intDigits * 10 ^ fracDigits.length + natOfDigits fracDigits)
        fracDigits.length
  | _ => none

/-- `pd.to_numeric(errors="coerce")` on one cell: numbers pass through,
parseable text becomes a number, everything else becomes `NaN` (`none`). -/
def toNumeric : Value → Option ℚ
  | Value.num q => some q
  | Value.str s => parseFloat s
  | Value.missing => none

/-- A pandas `DataFrame`: named columns and row-major cells.  All rows are
expected to have `header.length` cells; short rows read as missing. -/
structure DataFrame where
  header : List String
  rows : List (List Value)
deriving DecidableEq, Repr

/-- Index of a column name in the header (header length when absent). -/
def colIndex (df : DataFrame) (c : String) : Nat :=
  df.header.indexOf c

/-- Cell of a row at a column index; out-of-range reads as missing. -/
def getCell (row : List Value) (i : Nat) : Value :=
  row.getD i Value.missing

/-- One named column of the dataset, as a list of cells. -/
def getColumn (df : DataFrame) (c : String) : List Value :=
  df.rows.map (fun r => getCell r (colIndex df c))

/-- Drop the named columns (`df.drop(columns=...)`), keeping the original
order of the remaining columns. -/
def dropColumns (df : DataFrame) (cs : List String) : DataFrame :=
  { header := df.header.filter (fun c => !(cs.contains c)),
    rows := df.rows.map (fun r =>
      ((df.header.zip r).filter (fun p => !(cs.contains p.1))).map (·.2)) }

/-- Column-subset selection (`df[cs].copy()`), in the order of `cs`. -/
def selectColumns (df : DataFrame) (cs : List String) : DataFrame :=
  { header := cs,
    rows := df.rows.map (fun r => cs.map (fun c => getCell r (colIndex df c))) }

/-- `df[name] = vals`: replace the column when the name exists, else append. -/
def setColumn (df : DataFrame) (name : String) (vals : List Value) : DataFrame :=
  if name ∈ df.header then
    { header := df.header,
      rows := (df.rows.zip vals).map (fun p => p.1.set (colIndex df name) p.2) }
  else
    { header := df.header ++ [name],
      rows := (df.rows.zip vals).map (fun p => p.1 ++ [p.2]) }

/-- Collect a list of options into an option of a list (`none` if any entry
is missing); used to model `dropna()` on complete cases. -/
def allSome : List (Option ℚ) → Option (List ℚ)
  | [] => some []
  | Option.none :: _ => none
  | Option.some x :: t => (allSome t).map (x :: ·)

/-- `df[cols].apply(pd.to_numeric, errors="coerce").dropna()`: the rows of
the coerced item matrix that have no missing value, each as the list of the
`cols` values in order. -/
def completeRows (df : DataFrame) (cols : List String) : List (List ℚ) :=
  df.rows.filterMap (fun r =>
    allSome (cols.map (fun c => toNumeric (getCell r (colIndex df c)))))

/-- The `i`-th item column of the complete-case matrix. -/
def itemColumn (rows : List (List ℚ)) (i : Nat) : List ℚ :=
  rows.map (fun r => r.getD i 0)

/-- Arithmetic mean of a list of rationals. -/
def listMean (l : List ℚ) : ℚ := l.sum / l.length

/-- Sample variance with `ddof=1` (pandas `var`); `none` models the `NaN`
pandas produces for fewer than two observations. -/
def sampleVar (l : List ℚ) : Option ℚ :=
  if l.length < 2 then none
  else some ((l.map (fun x => (x - listMean l) ^ 2)).sum / ((l.length : ℚ) - 1))

/-- `stats.cronbach_alpha`: drop incomplete rows, take per-item sample
variances and the variance of the row sums, guard the degenerate cases, and
apply the alpha formula. -/
def cronbach_alpha (df : DataFrame) (cols : List String) : Option ℚ :=
  if cols.length < 2 then none
  else
    let items := completeRows df cols
    if items.isEmpty ∨ items.length < 2 then none
    else
      let item_vars := (List.range cols.length).map (fun i => sampleVar (itemColumn items i))
      match sampleVar (items.map List.sum) with
      | none => none
      | some total_var =>
          if total_var = 0 ∨ item_vars.any (·.isNone) then none
          else
            some (((cols.length : ℚ) / ((cols.length : ℚ) - 1)) *
              (1 - (item_vars.filterMap id).sum / total_var))

/-- Cronbach's alpha written from the specification's words, to be compared
against the implementation: "drop rows with any missing value among the
items; compute each item's sample variance and the sample variance of the
row-wise item sum; if the sum's variance is zero or any item variance is
undefined, return absent; otherwise alpha = (k/(k-1)) * (1 - sum of item
variances / total variance)". -/
def cronbachAlphaSpec (df : DataFrame) (cols : List String) : Option ℚ :=
  if cols.length < 2 then none
  else
    let items := completeRows df cols
    let item_vars := (List.range cols.length).map (fun i => sampleVar (itemColumn items i))
    match sampleVar (items.map List.sum) with
    | none => none
    | some total_var =>
        if total_var = 0 ∨ item_vars.any (·.isNone) then none
        else
          some (((cols.length : ℚ) / ((cols.length : ℚ) - 1)) *
            (1 - (item_vars.filterMap id).sum / total_var))

/-- `stats.alpha_if_item_dropped`: requires at least three items; for each
item, Cronbach's alpha of the remaining items.  The inner `match`
models the Python `cronbach_alpha(df, remaining) or float("nan")`: both a
`None` and a `0.0` result are falsy and become `NaN` (modelled as `none`). -/
def alpha_if_item_dropped (df : DataFrame) (cols : List String) :
    Option (List (String × Option ℚ)) :=
  if cols.length < 3 then none
  else
    some (cols.map (fun col =>
      (col,
        match cronbach_alpha df (cols.filter (fun x => x ≠ col)) with
        | none => none
        | some v => if v = 0 then none else some v)))

/-- `scales.ScaleDefinition` (cutoffs kept in insertion order). -/
structure ScaleDefinition where
  name : String
  items : List String
  method : String := "sum"
  output : Option String := none
  reverse : Option (List String) := none
  min_item : Option ℚ := none
  max_item : Option ℚ := none
  cutoffs : Option (List (String × String)) := none
deriving DecidableEq, Repr

/-- `ScaleDefinition.output_column`. -/
def ScaleDefinition.output_column (d : ScaleDefinition) : String :=
  d.output.getD (d.name ++ "_score")

/-- The built-in `SCALE_LIBRARY` of `scales.py` (PHQ-9 and GAD-7). -/
def SCALE_LIBRARY : List (String × ScaleDefinition) :=
  [("phq9",
    { name := "phq9",
      items := (List.range' 1 9).map (fun i => "phq9_item" ++ toString i),
      method := "sum",
      min_item := some 0,
      max_item := some 3,
      cutoffs := some [("minimal", "0-4"), ("mild", "5-9"), ("moderate", "10-14"),
        ("moderately_severe", "15-19"), ("severe", "20-27")] }),
   ("gad7",
    { name := "gad7",
      items := (List.range' 1 7).map (fun i => "gad7_item" ++ toString i),
      method := "sum",
      min_item := some 0,
      max_item := some 3,
      cutoffs := some [("minimal", "0-4"), ("mild", "5-9"), ("moderate", "10-14"),
        ("severe", "15-21")] })]

/-- Lexicographic comparison of character lists by code point, matching
Python's string ordering. -/
def strLeL : List Char → List Char → Bool
  | [], _ => true
  | _ :: _, [] => false
  | a :: as2, b :: bs =>
    if a.toNat < b.toNat then true
    else if b.toNat < a.toNat then false
    else strLeL as2 bs

/-- Lexicographic string comparison. -/
def strLe (s t : String) : Bool :=
  strLeL s.toList t.toList

/-- Insert a string into a sorted list of strings. -/
def insertSorted (s : String) : List String → List String
  | [] => [s]
  | h :: t => if strLe s h then s :: h :: t else h :: insertSorted s t

/-- Sort a list of strings (Python `sorted`). -/
def sortStrings (l : List String) : List String :=
  l.foldr insertSorted []

/-- `scales.available_scales`: the sorted keys of the built-in library. -/
def available_scales : List String :=
  sortStrings (SCALE_LIBRARY.map (·.1))

/-- Configuration failures that `scales.py` raises as `SystemExit`. -/
inductive ScaleError where
  | unknownScale (name : String) (available : List String)
  | missingItems (name : String) (missing : List String)
deriving DecidableEq, Repr

/-- Metadata record appended for each scored scale. -/
structure ScaleMeta where
  name : String
  output_column : String
  method : String
  cutoffs : Option (List (String × String))
  items : List String
deriving DecidableEq, Repr

/-- Reverse-coding of one coerced item value:
`reversed = max_item + min_item - value`; `NaN` propagates. -/
def reverseValue (mn mx : ℚ) (v : Option ℚ) : Option ℚ :=
  v.map (fun x => mx + mn - x)

/-- One pass of the `for col in definition.reverse` loop: reverse-code column
`col` of the item matrix when it is one of the value columns and both item
bounds are set; otherwise leave the matrix unchanged. -/
def reverseStep (d : ScaleDefinition) (items : List String)
    (vals : List (List (Option ℚ))) (col : String) : List (List (Option ℚ)) :=
  match d.max_item, d.min_item with
  | some mx, some mn =>
      if col ∈ items then
        vals.map (fun row =>
          (items.zip row).map (fun p => if p.1 = col then reverseValue mn mx p.2 else p.2))
      else vals
  | _, _ => vals

/-- The whole reverse-coding phase of `apply_scale_scores`. -/
def reverseValues (d : ScaleDefinition) (items : List String)
    (vals : List (List (Option ℚ))) : List (List (Option ℚ)) :=
  match d.reverse with
  | none => vals
  | some cols => cols.foldl (reverseStep d items) vals

/-- Row-wise aggregate: `mean` averages only the present values of the row
(`NaN` when none are present); any other method takes the `skipna` sum, which
is `0` for an all-missing row. -/
def rowScore (method : String) (vals : List (Option ℚ)) : Option ℚ :=
  if method = "mean" then
    let present := vals.filterMap id
    if present.isEmpty then none else some (present.sum / present.length)
  else
    some (vals.filterMap id).sum

/-- A computed score written back into a dataset cell. -/
def scoreValue : Option ℚ → Value
  | some q => Value.num q
  | none => Value.missing

/-- Score one scale definition against the dataset: check the item columns
are present, coerce them to numeric, reverse-code, aggregate row-wise and
append the output column, emitting the metadata record. -/
def applyOneScale (d : ScaleDefinition) (df : DataFrame) :
    Except ScaleError (DataFrame × ScaleMeta) :=
  let items := d.items.filter (fun c => df.header.contains c)
  if items.length ≠ d.items.length then
    Except.error (ScaleError.missingItems d.name
      (sortStrings ((d.items.filter (fun c => !(df.header.contains c))).eraseDups)))
  else
    let vals : List (List (Option ℚ)) :=
      df.rows.map (fun r => items.map (fun c => toNumeric (getCell r (colIndex df c))))
    let vals := reverseValues d items vals
    let scores := vals.map (rowScore d.method)
    Except.ok
      (setColumn df d.output_column (scores.map scoreValue),
       { name := d.name, output_column := d.output_column, method := d.method,
         cutoffs := d.cutoffs, items := d.items })

/-- `scales.apply_scale_scores`: look each requested name up in the built-in
`SCALE_LIBRARY` only (the function accepts no caller-supplied definitions),
failing with the unknown-scale error that names the available scales when
the lookup misses. -/
def apply_scale_scores : DataFrame → List String →
    Except ScaleError (DataFrame × List ScaleMeta)
  | df, [] => Except.ok (df, [])
  | df, n :: rest =>
    match (SCALE_LIBRARY.find? (fun p => p.1 = n)).map (·.2) with
    | none => Except.error (ScaleError.unknownScale n available_scales)
    | some d =>
      match applyOneScale d df with
      | Except.error e => Except.error e
      | Except.ok (df2, meta) =>
        match apply_scale_scores df2 rest with
        | Except.error e => Except.error e
        | Except.ok (df3, metas) => Except.ok (df3, meta :: metas)

/-- Remove every occurrence of a character from a string
(Python `text.replace("+", "")`). -/
def removeChar (c : Char) (s : String) : String :=
  String.mk (s.toList.filter (fun x => x ≠ c))

/-- Split at the first occurrence of a character
(Python `text.split(c, 1)` when `c` occurs). -/
def splitFirst (c : Char) (s : String) : String × String :=
  let cs := s.toList
  (String.mk (cs.takeWhile (fun x => x ≠ c)),
   String.mk ((cs.dropWhile (fun x => x ≠ c)).drop 1))

/-- The parse loop of `stats._interpret_cutoffs` (the source builds the
`parsed` list first, then matches): each band text becomes
`(label, low, high)` — `"N+"` gives `(N, none)`, `"low-high"` both bounds,
a single value `(v, v)`, and a malformed range is silently skipped. -/
def parseCutoffBands (cs : List (String × String)) :
    List (String × Option ℚ × Option ℚ) :=
  cs.filterMap (fun p =>
    let text := p.2
    if text.toList.contains '+' then
      -- the source applies `.strip()` before `float(...)`; `parseFloat`
      -- strips surrounding whitespace itself
      match parseFloat (removeChar '+' text) with
      | some low => some (p.1, some low, none)
      | none => none
    else if text.toList.contains '-' then
      let parts := splitFirst '-' text
      match parseFloat parts.1, parseFloat parts.2 with
      | some low, some high => some (p.1, some low, some high)
      | _, _ => none
    else
      match parseFloat text with
      | some v => some (p.1, some v, some v)
      | none => none)

/-- `stats._interpret_cutoffs`: parse each band ("low-high", "low+" or a
single value), silently skipping malformed ranges, then return the label of
the first band containing the score — the loop skips a band when the score
is strictly below its lower bound or strictly above its upper bound.
Absent score or cutoff map gives no label. -/
def interpret_cutoffs (score : Option ℚ)
    (cutoffs : Option (List (String × String))) : Option String :=
  match score, cutoffs with
  | some sc, some cs =>
    (parseCutoffBands cs).findSome? (fun b =>
      if (match b.2.1 with | some low => decide (sc < low) | none => false) then none
      else if (match b.2.2 with | some high => decide (high < sc) | none => false) then none
      else some b.1)
  | _, _ => none

/-- Cutoff interpretation written from the specification's words, to be
compared against the implementation: parse each range once, then "iterate
band definitions in the order supplied and return the first whose bounds
contain the value (inclusive on both ends when a closed range, inclusive
lower bound only for an open-ended '+' band)".  Containment is stated
positively and inclusively — `low ≤ value` and `value ≤ high` — with an
open-ended band imposing no upper bound, and `find?` takes the first
containing band in the supplied order. -/
def interpretCutoffsSpec (score : Option ℚ)
    (cutoffs : Option (List (String × String))) : Option String :=
  match score, cutoffs with
  | some sc, some cs =>
    ((parseCutoffBands cs).find? (fun b =>
      (match b.2.1 with | some low => decide (low ≤ sc) | none => true) &&
      (match b.2.2 with | some high => decide (sc ≤ high) | none => true))).map (·.1)
  | _, _ => none

/-- A `missingness` alert of `stats._missing_alerts`. -/
structure MissAlert where
  column : String
  percent : ℚ
  threshold : ℚ
deriving DecidableEq, Repr

/-- `stats._missing_alerts`: walk the `percent` mapping of the missingness
summary (a `none` percentage models a value `float(...)` rejects, which the
loop skips) and emit an alert for every column whose percentage reaches the
threshold (inclusive `>=`). -/
def missing_alerts : List (String × Option ℚ) → ℚ → List MissAlert
  | [], _ => []
  | (col, pct) :: rest, threshold =>
    match pct with
    | none => missing_alerts rest threshold
    | some v =>
      if threshold ≤ v then
        { column := col, percent := v, threshold := threshold } :: missing_alerts rest threshold
      else missing_alerts rest threshold

/-- Round to the nearest integer, ties to even (the rounding Python's fixed
format applies). -/
def roundHalfEven (q : ℚ) : ℤ :=
  let f := ⌊q⌋
  let r := q - (f : ℚ)
  if r < 1 / 2 then f
  else if 1 / 2 < r then f + 1
  else if f % 2 = 0 then f else f + 1

/-- Two-digit zero-padded numeral. -/
def padTwo (n : Nat) : String :=
  if n < 10 then "0" ++ toString n else toString n

/-- Python `f"{q:.2f}"`: two fixed decimals, a minus sign only when the
rounded value is negative (the drift code only formats deltas of magnitude
at least 1, so negative zero never arises). -/
def formatFixed2 (q : ℚ) : String :=
  let n := roundHalfEven (q * 100)
  let a := n.natAbs
  (if n < 0 then "-" else "") ++ toString (a / 100) ++ "." ++ padTwo (a % 100)

/-- Modelled from the spec: the `"+.2f"` format the specification quotes for
drift messages, which always writes an explicit sign. -/
def formatSignedFixed2 (q : ℚ) : String :=
  let n := roundHalfEven (q * 100)
  let a := n.natAbs
  (if n < 0 then "-" else "+") ++ toString (a / 100) ++ "." ++ padTwo (a % 100)

/-- One `scale_scores` entry of a run manifest, as the drift check reads it
(`entry.get("name")` and `entry.get("mean")` may be absent). -/
structure ScoreEntry where
  name : Option String
  mean : Option ℚ
deriving DecidableEq, Repr

/-- A `drift` record written to `drift.json`. -/
structure DriftRecord where
  scale : String
  previous_mean : Option ℚ
  current_mean : Option ℚ
  delta : ℚ
deriving DecidableEq, Repr

/-- A `drift` alert. -/
structure DriftAlert where
  scale : String
  delta : ℚ
  message : String
deriving DecidableEq, Repr

/-- The `prev_lookup` dictionary of `cli._run_drift_check`: a dict
comprehension keyed by name, so a later entry with the same name wins. -/
def lookupLast (prev : List ScoreEntry) (n : String) : Option ScoreEntry :=
  (prev.filter (fun e => e.name = some n)).getLast?

/-- The comparison loop of `cli._run_drift_check` over the current run's
score entries: skip entries with a falsy or unmatched name, compute
`delta = (current mean or 0) - (previous mean or 0)`, and when `|delta|`
reaches the fixed threshold `1.0` record a drift entry and emit a `drift`
alert with the `"<scale> mean changed by <delta:.2f> vs last run"` message. -/
def run_drift_check (prev : List ScoreEntry) :
    List ScoreEntry → List DriftRecord × List DriftAlert
  | [] => ([], [])
  | e :: rest =>
    let acc := run_drift_check prev rest
    match e.name with
    | none => acc
    | some n =>
      if n = "" then acc
      else
        match lookupLast prev n with
        | none => acc
        | some p =>
          let change := e.mean.getD 0 - p.mean.getD 0
          if |change| < 1 then acc
          else
            ({ scale := n, previous_mean := p.mean, current_mean := e.mean,
               delta := change } :: acc.1,
             { scale := n, delta := change,
               message := n ++ " mean changed by " ++ formatFixed2 change ++
                 " vs last run" } :: acc.2)

/-- Abstract syntax of the regular-expression fragment the PHI patterns of
`phi.py` use: literal characters, counted character classes (`X{lo,hi}`,
with `hi = none` for an unbounded `+` or `{lo,}`), sequencing, alternation,
the empty expression, and the `\b` word boundary. -/
inductive Rx where
  | lit (c : Char)
  | cls (p : Char → Bool) (lo : Nat) (hi : Option Nat)
  | seq (a b : Rx)
  | alt (a b : Rx)
  | eps
  | bnd

/-- Length of the run of class characters at the front of a suffix. -/
def runLen (p : Char → Bool) : List Char → Nat
  | [] => 0
  | c :: t => if p c then runLen p t + 1 else 0

/-- Python `\w` (the ASCII fragment): letters, digits, underscore. -/
def isWordChar (c : Char) : Bool :=
  c.isAlpha || c.isDigit || c = '_'

/-- Is the character at position `i` a word character (false off the ends)? -/
def wordAt (s : List Char) (i : Nat) : Bool :=
  match s.get? i with
  | some c => isWordChar c
  | none => false

/-- `\b`: a word boundary sits at position `i`. -/
def atBoundary (s : List Char) (i : Nat) : Bool :=
  match i with
  | 0 => wordAt s 0
  | j + 1 => wordAt s j != wordAt s (j + 1)

/-- All positions where a match of `r` that starts at `i` can end. -/
def rxEnds (r : Rx) (s : List Char) : Nat → List Nat
  | i =>
    match r with
    | Rx.eps => [i]
    | Rx.lit c => if s.get? i = some c then [i + 1] else []
    | Rx.bnd => if atBoundary s i then [i] else []
    | Rx.alt a b => rxEnds a s i ++ rxEnds b s i
    | Rx.seq a b => (rxEnds a s i).flatMap (rxEnds b s)
    | Rx.cls p lo hi =>
      let run := runLen p (s.drop i)
      let top := min run (hi.getD run)
      (List.range (top + 1)).filterMap (fun n =>
        if lo ≤ n then some (i + n) else none)

/-- `re.search`: does the pattern match anywhere in the string? -/
def rxSearch (r : Rx) (s : String) : Bool :=
  let cs := s.toList
  (List.range (cs.length + 1)).any (fun i => !(rxEnds r cs i).isEmpty)

/-- Chain a list of expressions in sequence. -/
def rxSeqs (l : List Rx) : Rx :=
  l.foldr Rx.seq Rx.eps

/-- A literal string as an expression. -/
def rxStr (s : String) : Rx :=
  rxSeqs (s.toList.map Rx.lit)

/-- `X?`. -/
def rxOpt (r : Rx) : Rx :=
  Rx.alt r Rx.eps

/-- `\d{n}`. -/
def rxDigits (n : Nat) : Rx :=
  Rx.cls Char.isDigit n (some n)

/-- Python `\s` characters. -/
def isSpaceChar (c : Char) : Bool :=
  c = ' ' || c = '\t' || c = '\n' || c = '\r' || c = '\x0b' || c = '\x0c'

/-- `[-.\s]?`: an optional separator. -/
def rxSepOpt : Rx :=
  Rx.cls (fun c => c = '-' || c = '.' || isSpaceChar c) 0 (some 1)

/-- The `email` pattern:
`[A-Za-z0-9._%+-]+@[A-Za-z0-9.-]+\.[A-Za-z]{2,}`. -/
def emailRx : Rx :=
  rxSeqs
    [Rx.cls (fun c => c.isAlpha || c.isDigit || c = '.' || c = '_' || c = '%' ||
        c = '+' || c = '-') 1 none,
     Rx.lit '@',
     Rx.cls (fun c => c.isAlpha || c.isDigit || c = '.' || c = '-') 1 none,
     Rx.lit '.',
     Rx.cls Char.isAlpha 2 none]

/-- The `phone` pattern:
`\b(?:\+?1[-.\s]?)?(?:\(\d{3}\)|\d{3})[-.\s]?\d{3}[-.\s]?\d{4}\b`. -/
def phoneRx : Rx :=
  rxSeqs
    [Rx.bnd,
     rxOpt (rxSeqs [rxOpt (Rx.lit '+'), Rx.lit '1', rxSepOpt]),
     Rx.alt (rxSeqs [Rx.lit '(', rxDigits 3, Rx.lit ')']) (rxDigits 3),
     rxSepOpt, rxDigits 3, rxSepOpt, rxDigits 4,
     Rx.bnd]

/-- The `ssn` pattern: `\b\d{3}-\d{2}-\d{4}\b`. -/
def ssnRx : Rx :=
  rxSeqs [Rx.bnd, rxDigits 3, Rx.lit '-', rxDigits 2, Rx.lit '-', rxDigits 4, Rx.bnd]

/-- The `mrn` pattern: `\bMRN\d+\b`. -/
def mrnRx : Rx :=
  rxSeqs [Rx.bnd, rxStr "MRN", Rx.cls Char.isDigit 1 none, Rx.bnd]

/-- The `url` pattern: `https?://[^\s]+`. -/
def urlRx : Rx :=
  rxSeqs [rxStr "http", rxOpt (Rx.lit 's'), rxStr "://",
    Rx.cls (fun c => !isSpaceChar c) 1 none]

/-- `phi.PHI_PATTERNS`, as (name, compiled expression) pairs. -/
def PHI_PATTERNS : List (String × Rx) :=
  [("email", emailRx), ("phone", phoneRx), ("ssn", ssnRx),
   ("mrn", mrnRx), ("url", urlRx)]

/-- `phi.PhiOptions`; caller-supplied extra patterns arrive here already
compiled (the Python side compiles the regex strings). -/
structure PhiOptions where
  extra_patterns : Option (List Rx) := none
  keywords : Option (List String) := none
  ignore_columns : Option (List String) := none
  allow_columns : Option (List String) := none

/-- The pattern list the scan uses: built-ins plus the caller's extra
patterns named `custom_1`, `custom_2`, .... -/
def patternsOf (o : Option PhiOptions) : List (String × Rx) :=
  match o with
  | some os =>
    match os.extra_patterns with
    | some extra =>
      PHI_PATTERNS ++ (extra.enumFrom 1).map (fun p => ("custom_" ++ toString p.1, p.2))
    | none => PHI_PATTERNS
  | none => PHI_PATTERNS

/-- The ignore list in force. -/
def ignoreListOf (o : Option PhiOptions) : List String :=
  match o with
  | some os => os.ignore_columns.getD []
  | none => []

/-- The allow list in force. -/
def allowListOf (o : Option PhiOptions) : List String :=
  match o with
  | some os => os.allow_columns.getD []
  | none => []

/-- The caller-supplied keywords in force. -/
def keywordsOf (o : Option PhiOptions) : List String :=
  match o with
  | some os => os.keywords.getD []
  | none => []

/-- Does `needle` occur at the front of `hay`? -/
def startsWithL : List Char → List Char → Bool
  | [], _ => true
  | _ :: _, [] => false
  | a :: as2, b :: bs => a = b && startsWithL as2 bs

/-- Python's `needle in hay` substring test. -/
def containsL (needle : List Char) : List Char → Bool
  | [] => startsWithL needle []
  | c :: t => startsWithL needle (c :: t) || containsL needle t

/-- Substring test on strings. -/
def substrOf (needle hay : String) : Bool :=
  containsL needle.toList hay.toList

/-- A column is text-valued when pandas keeps it at object/string dtype; in
this model, when some cell holds a string. -/
def isTextColumn (cells : List Value) : Bool :=
  cells.any (fun v => match v with | Value.str _ => true | _ => false)

/-- `series.dropna().astype(str)` on a column.  Numeric cells of an object
column stringify via the rational printer; the claims under verification
only exercise string cells. -/
def seriesOf (df : DataFrame) (col : String) : List String :=
  (getColumn df col).filterMap (fun v =>
    match v with
    | Value.missing => none
    | Value.str s => some s
    | Value.num q => some (toString q))

/-- A PHI finding for one column. -/
structure PhiFinding where
  column : String
  matches_ : List (String × Nat)
deriving DecidableEq, Repr

/-- Matches for one column: the per-pattern row counts (patterns with zero
hits are dropped), falling back to the `column_name` heuristic pseudo-match
when no pattern fired but the lowercased column name contains a default or
caller-supplied keyword. -/
def columnFindings (o : Option PhiOptions) (series : List String)
    (colName : String) : List (String × Nat) :=
  let ms := (patternsOf o).filterMap (fun p =>
    let count := (series.filter (fun s => rxSearch p.2 s)).length
    if count = 0 then none else some (p.1, count))
  let tokens := ["name", "email", "phone", "mrn"] ++ (keywordsOf o).map String.toLower
  if ms.isEmpty && tokens.any (fun t => substrOf t colName.toLower) then
    [("column_name", series.length)]
  else ms

/-- The scan decision for one column of the main loop of
`phi.scan_phi_columns`: skipped when ignored or empty after `dropna`, else
flagged exactly when it has findings. -/
def phiScanColumn (df : DataFrame) (o : Option PhiOptions) (col : String) :
    Option PhiFinding :=
  if (ignoreListOf o).contains col then none
  else
    let series := seriesOf df col
    if series.isEmpty then none
    else
      let ms := columnFindings o series col
      if ms.isEmpty then none else some { column := col, matches_ := ms }

/-- The flagged columns accumulated by the loop of `phi.scan_phi_columns`,
in column order. -/
def phiFlagged (df : DataFrame) (o : Option PhiOptions) : List PhiFinding :=
  (df.header.filter (fun c => isTextColumn (getColumn df c))).filterMap
    (phiScanColumn df o)

/-- The `quarantine_cols` of `phi.scan_phi_columns`: every flagged column
not on the allow list. -/
def phiQuarantineCols (df : DataFrame) (o : Option PhiOptions) : List String :=
  ((phiFlagged df o).map (·.column)).filter
    (fun c => !((allowListOf o).contains c))

/-- `phi.scan_phi_columns`: scan every text-valued, non-ignored, non-empty
column; a column with findings is flagged, and quarantined (copied to the
quarantine dataset and dropped from the working dataset) unless it is on the
allow list.  The quarantine dataset is `none` when nothing was quarantined. -/
def scan_phi_columns (df : DataFrame) (o : Option PhiOptions) :
    DataFrame × List PhiFinding × Option DataFrame :=
  let quarantineCols := phiQuarantineCols df o
  let quarantineDf :=
    if quarantineCols.isEmpty then none else some (selectColumns df quarantineCols)
  let outDf := if quarantineCols.isEmpty then df else dropColumns df quarantineCols
  (outDf, phiFlagged df o, quarantineDf)

/-! Concrete fixtures used by the claim theorems, their witnesses and
counterexamples. -/

/-- A two-row dataset whose two item columns are constant. -/
def dfConst : DataFrame :=
  { header := ["a", "b"],
    rows := [[Value.num 2, Value.num 3], [Value.num 2, Value.num 3]] }

/-- Four complete rows over items `a`, `b`, `c`; `a` and `b` are
uncorrelated, so Cronbach's alpha on `(a, b)` is exactly `0`. -/
def exDf4 : DataFrame :=
  { header := ["a", "b", "c"],
    rows := [[Value.num 0, Value.num 0, Value.num 1],
             [Value.num 0, Value.num 1, Value.num 2],
             [Value.num 1, Value.num 0, Value.num 3],
             [Value.num 1, Value.num 1, Value.num 4]] }

/-- The four bands of the cutoff-banding scenario: `[0,4]`, `[5,9]`,
`[10,14]`, `[15+]`. -/
def demoCutoffs : List (String × String) :=
  [("minimal", "0-4"), ("mild", "5-9"), ("moderate", "10-14"), ("severe", "15+")]

/-- A `mean`-method scale over two items. -/
def meanDef : ScaleDefinition :=
  { name := "m", items := ["i1", "i2"], method := "mean" }

/-- A `sum`-method scale over two items. -/
def sumDef : ScaleDefinition :=
  { name := "s", items := ["i1", "i2"], method := "sum" }

/-- One row holding `[1, missing]` over the two items. -/
def dfMeanRow : DataFrame :=
  { header := ["i1", "i2"], rows := [[Value.num 1, Value.missing]] }

/-- One row with both items missing. -/
def dfAllMissing : DataFrame :=
  { header := ["i1", "i2"], rows := [[Value.missing, Value.missing]] }

/-- A scale that reverse-codes `i1` with both bounds set. -/
def revDef : ScaleDefinition :=
  { name := "r", items := ["i1", "i2"], reverse := some ["i1"],
    min_item := some 0, max_item := some 3 }

/-- A scale that designates `i1` for reverse-coding but sets only the upper
bound. -/
def noBoundDef : ScaleDefinition :=
  { name := "n", items := ["i1"], reverse := some ["i1"], max_item := some 3 }

/-- A dataset with an email-bearing text column next to a numeric column. -/
def dfPhi : DataFrame :=
  { header := ["id", "contact"],
    rows := [[Value.num 1, Value.str "alice@x.com"],
             [Value.num 2, Value.str "bob@y.com"]] }

/-- A purely numeric dataset (nothing to quarantine). -/
def dfNum : DataFrame :=
  { header := ["score"], rows := [[Value.num 5]] }

/-- Current-run scale scores for the drift scenario. -/
def curScores : List ScoreEntry :=
  [{ name := some "phq9", mean := some (13 / 2) }]

/-- Previous-run scale scores for the drift scenario. -/
def prevScores : List ScoreEntry :=
  [{ name := some "phq9", mean := some 5 }]

/-! Helper lemmas shared by the claim theorems. -/

theorem allSome_map_some (l : List ℚ) : allSome (l.map Option.some) = some l := by
  induction l with
  | nil => rfl
  | cons a t ih => simp [allSome, ih]

theorem filterMap_eq_map_of_mem {α β : Type} {l : List α} {f : α → Option β} {b : β}
    (h : ∀ x ∈ l, f x = some b) : l.filterMap f = l.map (fun _ => b) := by
  induction l with
  | nil => rfl
  | cons a t ih =>
    simp only [List.filterMap_cons, h a (List.mem_cons_self a t), List.map_cons]
    exact congrArg _ (ih (fun x hx => h x (List.mem_cons_of_mem a hx)))

theorem sampleVar_eq_none_iff (l : List ℚ) : sampleVar l = none ↔ l.length < 2 := by
  unfold sampleVar
  split <;> simp_all

theorem sampleVar_const {l : List ℚ} {a : ℚ} (h : ∀ x ∈ l, x = a)
    (h2 : 2 ≤ l.length) : sampleVar l = some 0 := by
  have hlen : (l.length : ℚ) ≠ 0 := by
    have : 0 < l.length := lt_of_lt_of_le (by norm_num) h2
    exact_mod_cast this.ne'
  have hsum : l.sum = l.length • a := List.sum_eq_card_nsmul l a h
  have hmean : listMean l = a := by
    unfold listMean
    rw [hsum, nsmul_eq_mul, mul_comm, mul_div_assoc, div_self hlen, mul_one]
  have hzero : (l.map (fun x => (x - listMean l) ^ 2)).sum = 0 := by
    apply List.sum_eq_zero
    intro y hy
    obtain ⟨x, hx, rfl⟩ := List.mem_map.1 hy
    rw [hmean, h x hx, sub_self]
    ring
  unfold sampleVar
  rw [if_neg (Nat.not_lt.2 h2), hzero, zero_div]

theorem cronbach_exDf4_ab : cronbach_alpha exDf4 ["a", "b"] = some 0 := by
  have hrows : completeRows exDf4 ["a", "b"] = [[0, 0], [0, 1], [1, 0], [1, 1]] := by decide
  simp only [cronbach_alpha, hrows]
  simp only [List.range_succ, List.range_zero, List.nil_append, List.cons_append,
    List.map_cons, List.map_nil, itemColumn, sampleVar, listMean, List.length_cons,
    List.length_nil, List.sum_cons, List.sum_nil, List.getD, List.getElem?_cons_zero,
    List.getElem?_cons_succ, Option.getD_some, List.isEmpty_cons]
  norm_num [List.filterMap_cons, List.filterMap_nil, List.sum_cons, List.sum_nil]

theorem cronbach_exDf4_bc : cronbach_alpha exDf4 ["b", "c"] = some (1 / 2) := by
  have hrows : completeRows exDf4 ["b", "c"] = [[0, 1], [1, 2], [0, 3], [1, 4]] := by decide
  simp only [cronbach_alpha, hrows]
  simp only [List.range_succ, List.range_zero, List.nil_append, List.cons_append,
    List.map_cons, List.map_nil, itemColumn, sampleVar, listMean, List.length_cons,
    List.length_nil, List.sum_cons, List.sum_nil, List.getD, List.getElem?_cons_zero,
    List.getElem?_cons_succ, Option.getD_some, List.isEmpty_cons]
  norm_num [List.filterMap_cons, List.filterMap_nil, List.sum_cons, List.sum_nil]

theorem cronbach_exDf4_ac : cronbach_alpha exDf4 ["a", "c"] = some (4 / 5) := by
  have hrows : completeRows exDf4 ["a", "c"] = [[0, 1], [0, 2], [1, 3], [1, 4]] := by decide
  simp only [cronbach_alpha, hrows]
  simp only [List.range_succ, List.range_zero, List.nil_append, List.cons_append,
    List.map_cons, List.map_nil, itemColumn, sampleVar, listMean, List.length_cons,
    List.length_nil, List.sum_cons, List.sum_nil, List.getD, List.getElem?_cons_zero,
    List.getElem?_cons_succ, Option.getD_some, List.isEmpty_cons]
  norm_num [List.filterMap_cons, List.filterMap_nil, List.sum_cons, List.sum_nil]

theorem alpha_drop_exDf4_eval :
    alpha_if_item_dropped exDf4 ["a", "b", "c"] =
      some [("a", some (1 / 2)), ("b", some (4 / 5)), ("c", none)] := by
  have hbc : (["a", "b", "c"].filter (fun x => x ≠ "a")) = ["b", "c"] := by decide
  have hac : (["a", "b", "c"].filter (fun x => x ≠ "b")) = ["a", "c"] := by decide
  have hab : (["a", "b", "c"].filter (fun x => x ≠ "c")) = ["a", "b"] := by decide
  simp only [alpha_if_item_dropped, List.map_cons, List.map_nil, hbc, hac, hab,
    cronbach_exDf4_ab, cronbach_exDf4_bc, cronbach_exDf4_ac]
  norm_num

theorem formatFixed2_three_halves : formatFixed2 (3 / 2) = "1.50" := by
  have harg : ((3 : ℚ) / 2) * 100 = 150 := by norm_num
  have hfloor : ⌊(150 : ℚ)⌋ = 150 := by norm_num
  have hrhe : roundHalfEven ((3 : ℚ) / 2 * 100) = 150 := by
    simp only [roundHalfEven, harg, hfloor]
    norm_num
  simp only [formatFixed2, hrhe]
  rfl

theorem formatSignedFixed2_three_halves : formatSignedFixed2 (3 / 2) = "+1.50" := by
  have harg : ((3 : ℚ) / 2) * 100 = 150 := by norm_num
  have hfloor : ⌊(150 : ℚ)⌋ = 150 := by norm_num
  have hrhe : roundHalfEven ((3 : ℚ) / 2 * 100) = 150 := by
    simp only [roundHalfEven, harg, hfloor]
    norm_num
  simp only [formatSignedFixed2, hrhe]
  rfl

theorem drift_eval :
    run_drift_check prevScores curScores =
      ([{ scale := "phq9", previous_mean := some 5, current_mean := some (13 / 2),
          delta := 3 / 2 }],
       [{ scale := "phq9", delta := 3 / 2,
          message := "phq9 mean changed by 1.50 vs last run" }]) := by
  have hlook : lookupLast [{ name := some "phq9", mean := some 5 }] "phq9" =
      some { name := some "phq9", mean := some 5 } := by rfl
  have hdelta : ((13 : ℚ) / 2) - 5 = 3 / 2 := by norm_num
  have habs : ¬(|(3 : ℚ) / 2| < 1) := by
    rw [abs_of_nonneg (by norm_num)]
    norm_num
  simp only [curScores, prevScores, run_drift_check, hlook, Option.getD_some, hdelta]
  rw [if_neg (by decide : ¬("phq9" = "")), if_neg habs]
  simp only [formatFixed2_three_halves]
  rfl

theorem phiScanColumn_column {df : DataFrame} {o : Option PhiOptions} {col : String}
    {f : PhiFinding} (h : phiScanColumn df o col = some f) : f.column = col := by
  simp only [phiScanColumn] at h
  split_ifs at h
  all_goals first
    | exact Option.noConfusion h
    | (injection h with h4; rw [← h4])

theorem phiFlagged_column_mem {df : DataFrame} {o : Option PhiOptions} {f : PhiFinding}
    (hf : f ∈ phiFlagged df o) : f.column ∈ df.header := by
  unfold phiFlagged at hf
  obtain ⟨col, hcol, hsc⟩ := List.mem_filterMap.1 hf
  rw [phiScanColumn_column hsc]
  exact (List.mem_filter.1 hcol).1

theorem findSome_eq_find_map {α β : Type} (f : α → Option β) (g : α → Bool) (h : α → β)
    (hfg : ∀ b, f b = if g b then some (h b) else none) :
    ∀ l : List α, l.findSome? f = (l.find? g).map h := by
  intro l
  induction l with
  | nil => rfl
  | cons a t ih =>
    cases hg : g a
    · have hnone : (f a).isNone := by rw [hfg a, hg]; rfl
      rw [List.findSome?_cons_of_isNone t hnone,
        List.find?_cons_of_neg t (by simp [hg]), ih]
    · have hsome : (f a).isSome := by rw [hfg a, hg]; rfl
      rw [List.findSome?_cons_of_isSome t hsome,
        List.find?_cons_of_pos t (by simp [hg]), hfg a, hg]
      rfl

theorem bandGuardEq (sc : ℚ) (b : String × Option ℚ × Option ℚ) :
    (if (match b.2.1 with | some low => decide (sc < low) | none => false) then
       (none : Option String)
     else if (match b.2.2 with | some high => decide (high < sc) | none => false) then none
     else some b.1) =
    (if ((match b.2.1 with | some low => decide (low ≤ sc) | none => true) &&
         (match b.2.2 with | some high => decide (sc ≤ high) | none => true)) then
       some b.1
     else none) := by
  obtain ⟨label, low, high⟩ := b
  cases low with
  | none =>
    cases high with
    | none => rfl
    | some hv =>
      by_cases h2 : hv < sc
      · simp [h2, not_le.2 h2]
      · simp [h2, not_lt.1 h2]
  | some lv =>
    cases high with
    | none =>
      by_cases h1 : sc < lv
      · simp [h1, not_le.2 h1]
      · simp [h1, not_lt.1 h1]
    | some hv =>
      by_cases h1 : sc < lv
      · simp [h1, not_le.2 h1]
      · by_cases h2 : hv < sc
        · simp [h1, h2, not_le.2 h2, not_lt.1 h1]
        · simp [h1, h2, not_lt.1 h1, not_lt.1 h2]

/-! Claim theorems. -/

/-- Claim C1: for k >= 2 item columns, Cronbach's alpha is computed exactly
as the specification states it (complete-case filtering, sample variances,
the (k/(k-1))(1 - sum item variances / total variance) formula, absent when
the total variance is zero or an item variance is undefined), and for items
holding identical constant values in every row the result is absent, never
a division by zero. -/
theorem cronbach_alpha_correct (df : DataFrame) (cols : List String)
    (hk : 2 ≤ cols.length) :
    cronbach_alpha df cols = cronbachAlphaSpec df cols ∧
    (∀ t : List ℚ,
      (∀ row ∈ df.rows,
        cols.map (fun c => toNumeric (getCell row (colIndex df c))) = t.map Option.some) →
      cronbach_alpha df cols = none) := by
  constructor
  · simp only [cronbach_alpha, cronbachAlphaSpec]
    rw [if_neg (Nat.not_lt.2 hk), if_neg (Nat.not_lt.2 hk)]
    by_cases hlen : (completeRows df cols).length < 2
    · have hsv : sampleVar ((completeRows df cols).map List.sum) = none := by
        rw [sampleVar_eq_none_iff, List.length_map]; exact hlen
      rw [if_pos (Or.inr hlen), hsv]
    · have hne : ¬((completeRows df cols).isEmpty = true ∨ (completeRows df cols).length < 2) := by
        rintro (he | hl)
        · rw [List.isEmpty_iff] at he
          exact hlen (by rw [he]; norm_num)
        · exact hlen hl
      rw [if_neg hne]
  · intro t ht
    have hcr : completeRows df cols = df.rows.map (fun _ => t) := by
      unfold completeRows
      apply filterMap_eq_map_of_mem
      intro r hr
      rw [ht r hr]
      exact allSome_map_some t
    simp only [cronbach_alpha]
    rw [if_neg (Nat.not_lt.2 hk)]
    by_cases hlen : (completeRows df cols).length < 2
    · rw [if_pos (Or.inr hlen)]
    · have hne : ¬((completeRows df cols).isEmpty = true ∨ (completeRows df cols).length < 2) := by
        rintro (he | hl)
        · rw [List.isEmpty_iff] at he
          exact hlen (by rw [he]; norm_num)
        · exact hlen hl
      have hsum : sampleVar ((completeRows df cols).map List.sum) = some 0 := by
        apply sampleVar_const (a := t.sum)
        · intro x hx
          rw [hcr, List.map_map] at hx
          obtain ⟨r, _, rfl⟩ := List.mem_map.1 hx
          rfl
        · rw [List.length_map]; exact Nat.not_lt.1 hlen
      rw [if_neg hne, hsum]
      simp

/-- Witness for C1 at a concrete constant two-item dataset. -/
theorem cronbach_alpha_correct_witness :
    cronbach_alpha dfConst ["a", "b"] = cronbachAlphaSpec dfConst ["a", "b"] ∧
    cronbach_alpha dfConst ["a", "b"] = none :=
  ⟨(cronbach_alpha_correct dfConst ["a", "b"] (by decide)).1,
   (cronbach_alpha_correct dfConst ["a", "b"] (by decide)).2 [2, 3] (by decide)⟩

/-- Claim C2 (code-bug evidence): `apply_scale_scores` consults only the
built-in `SCALE_LIBRARY` — a name that exists only among caller-supplied
custom definitions (such as the `phq2_custom` the repository's own CLI test
scores) is rejected with the unknown-scale error naming the built-in scales,
instead of succeeding against the combined registry. -/
theorem apply_scale_scores_ignores_custom_registry :
    apply_scale_scores { header := [], rows := [] } ["phq2_custom"] =
      Except.error (ScaleError.unknownScale "phq2_custom" ["gad7", "phq9"]) := by
  rfl

/-- Claim C3 counterexample: at current mean 6.5 against previous mean 5.0
the emitted drift message formats the delta with `".2f"` — `"1.50"`, with
no explicit plus sign — while the claim's `"+.2f"` format would produce
`"+1.50"`. -/
theorem run_drift_check_message_counterexample :
    (run_drift_check prevScores curScores).2 =
      [{ scale := "phq9", delta := 3 / 2,
         message := "phq9 mean changed by 1.50 vs last run" }] ∧
    "phq9 mean changed by 1.50 vs last run" ≠
      "phq9" ++ " mean changed by " ++ formatSignedFixed2 (3 / 2) ++ " vs last run" := by
  constructor
  · rw [drift_eval]
  · rw [formatSignedFixed2_three_halves]
    decide

/-- Claim C3 (amended): the drift check pairs current entries with the
previous run's entries by scale name, skipping names absent on either side,
records a drift entry and emits a drift alert exactly when
`|delta| >= 1.0` with `delta = current mean - previous mean`, and the alert
message is the scale name, `" mean changed by "`, the delta in Python
`".2f"` format (no explicit plus sign), and `" vs last run"`. -/
theorem run_drift_check_characterization (prev cur : List ScoreEntry) :
    run_drift_check prev cur =
      (cur.filterMap (fun e =>
        match e.name with
        | none => none
        | some n =>
          if n = "" then none
          else
            match lookupLast prev n with
            | none => none
            | some p =>
              if |e.mean.getD 0 - p.mean.getD 0| < 1 then none
              else some { scale := n, previous_mean := p.mean, current_mean := e.mean,
                          delta := e.mean.getD 0 - p.mean.getD 0 }),
       cur.filterMap (fun e =>
        match e.name with
        | none => none
        | some n =>
          if n = "" then none
          else
            match lookupLast prev n with
            | none => none
            | some p =>
              if |e.mean.getD 0 - p.mean.getD 0| < 1 then none
              else some { scale := n, delta := e.mean.getD 0 - p.mean.getD 0,
                          message := n ++ " mean changed by " ++
                            formatFixed2 (e.mean.getD 0 - p.mean.getD 0) ++
                            " vs last run" })) := by
  induction cur with
  | nil => rfl
  | cons e rest ih =>
    simp only [run_drift_check, ih, List.filterMap_cons]
    cases hn : e.name with
    | none => rfl
    | some n =>
      by_cases hempty : n = ""
      · simp [hempty]
      · simp only [if_neg hempty]
        cases hp : lookupLast prev n with
        | none => rfl
        | some p =>
          by_cases hch : |e.mean.getD 0 - p.mean.getD 0| < 1
          · simp [hch]
          · simp [hch]

/-- Claim C4 counterexample: on `exDf4`, Cronbach's alpha recomputed on the
remaining items `a`, `b` after dropping `c` is exactly `0`, yet
alpha-if-item-dropped reports `NaN` (absent) for `c` — the Python
`or float("nan")` also swallows a zero alpha. -/
theorem alpha_if_item_dropped_counterexample :
    cronbach_alpha exDf4 ["a", "b"] = some 0 ∧
    alpha_if_item_dropped exDf4 ["a", "b", "c"] =
      some [("a", some (1 / 2)), ("b", some (4 / 5)), ("c", none)] := by
  constructor
  · exact cronbach_exDf4_ab
  · exact alpha_drop_exDf4_eval

/-- Claim C4 (amended): alpha-if-item-dropped is absent for fewer than 3
items, and for 3 or more items each item maps to Cronbach's alpha of the
remaining items, except that an undefined recomputed alpha — and, because
`0.0` is falsy in the `or float("nan")` fallback, also a recomputed alpha
of exactly zero — is reported as NaN. -/
theorem alpha_if_item_dropped_amended (df : DataFrame) (cols : List String) :
    (cols.length < 3 → alpha_if_item_dropped df cols = none) ∧
    (3 ≤ cols.length →
      ∃ m, alpha_if_item_dropped df cols = some m ∧
        ∀ c ∈ cols,
          ((cronbach_alpha df (cols.filter (fun x => x ≠ c)) = none ∨
            cronbach_alpha df (cols.filter (fun x => x ≠ c)) = some 0) →
            (c, (none : Option ℚ)) ∈ m) ∧
          (∀ a, cronbach_alpha df (cols.filter (fun x => x ≠ c)) = some a → a ≠ 0 →
            (c, some a) ∈ m)) := by
  constructor
  · intro h
    unfold alpha_if_item_dropped
    rw [if_pos h]
  · intro h3
    unfold alpha_if_item_dropped
    rw [if_neg (Nat.not_lt.2 h3)]
    refine ⟨_, rfl, ?_⟩
    intro c hc
    constructor
    · rintro (h | h)
      · exact List.mem_map.2 ⟨c, hc, by rw [h]⟩
      · refine List.mem_map.2 ⟨c, hc, ?_⟩
        rw [h]
        norm_num
    · intro a ha hane
      refine List.mem_map.2 ⟨c, hc, ?_⟩
      rw [ha]
      simp [hane]

/-- Witness for the amended C4 at `exDf4`: dropping `c` leaves an alpha of
zero, which the per-item mapping reports as NaN. -/
theorem alpha_if_item_dropped_amended_witness :
    ∃ m, alpha_if_item_dropped exDf4 ["a", "b", "c"] = some m ∧
      ("c", (none : Option ℚ)) ∈ m := by
  obtain ⟨m, hm, hprop⟩ :=
    (alpha_if_item_dropped_amended exDf4 ["a", "b", "c"]).2 (by decide)
  exact ⟨m, hm, (hprop "c" (by decide)).1 (Or.inr cronbach_exDf4_ab)⟩

/-- Claim C5: for every score and cutoff map, the implementation agrees
with the spec-worded interpreter — parse each band once (skipping malformed
ranges), then return the label of the first band containing the value, with
containment inclusive on both ends of a closed range and inclusive on the
lower bound only of an open-ended "+" band — and nothing is returned when
the score or the map is absent.  On the bands [0,4],[5,9],[10,14],[15+] the
value 4 takes the first band (upper bound inclusive), 5 the second (lower
bound inclusive), 9 the second again, 15 and 100 the open-ended band (its
lower bound inclusive), and -1 no band; a malformed range is silently
skipped; matching is first-match-wins in the supplied order for overlapping
bands. -/
theorem interpret_cutoffs_correct :
    (∀ s c, interpret_cutoffs s c = interpretCutoffsSpec s c) ∧
    (∀ c, interpret_cutoffs none c = none) ∧
    (∀ s, interpret_cutoffs s none = none) ∧
    interpret_cutoffs (some 4) (some demoCutoffs) = some "minimal" ∧
    interpret_cutoffs (some 5) (some demoCutoffs) = some "mild" ∧
    interpret_cutoffs (some 9) (some demoCutoffs) = some "mild" ∧
    interpret_cutoffs (some 15) (some demoCutoffs) = some "severe" ∧
    interpret_cutoffs (some 100) (some demoCutoffs) = some "severe" ∧
    interpret_cutoffs (some (-1)) (some demoCutoffs) = none ∧
    interpret_cutoffs (some 1) (some [("bad", "x-y"), ("ok", "0+")]) = some "ok" ∧
    interpret_cutoffs (some 3) (some [("x", "0-5"), ("y", "3-8")]) = some "x" := by
  refine ⟨?_, fun c => by cases c <;> rfl, fun s => by cases s <;> rfl,
    ?_, ?_, ?_, ?_, ?_, ?_, ?_, ?_⟩
  · intro s c
    cases s with
    | none => cases c <;> rfl
    | some sc =>
      cases c with
      | none => rfl
      | some cs =>
        exact findSome_eq_find_map _ _ _ (bandGuardEq sc) (parseCutoffBands cs)
  all_goals decide

/-- Claim C6: the `mean` method averages only the present values of each
row — the score is absent exactly when no value is present, a returned mean
times the count of present values is their sum, and on items `[i1, i2]`
with a row `[1, missing]` the appended score is `1` (the missing value is
excluded, not treated as zero). -/
theorem mean_scores_average_present_values :
    (∀ vals : List (Option ℚ), rowScore "mean" vals = none ↔ vals.filterMap id = []) ∧
    (∀ vals : List (Option ℚ), ∀ q, rowScore "mean" vals = some q →
      q * (vals.filterMap id).length = (vals.filterMap id).sum) ∧
    applyOneScale meanDef dfMeanRow =
      Except.ok ({ header := ["i1", "i2", "m_score"],
                   rows := [[Value.num 1, Value.missing, Value.num 1]] },
        { name := "m", output_column := "m_score", method := "mean", cutoffs := none,
          items := ["i1", "i2"] }) := by
  refine ⟨?_, ?_, by with_unfolding_all rfl⟩
  · intro vals
    unfold rowScore
    rw [if_pos rfl]
    by_cases h : vals.filterMap id = []
    · simp [h]
    · simp [h]
  · intro vals q hq
    unfold rowScore at hq
    rw [if_pos rfl] at hq
    by_cases h : vals.filterMap id = []
    · rw [if_pos (List.isEmpty_iff.2 h)] at hq
      exact absurd hq (by simp)
    · rw [if_neg (fun he => h (List.isEmpty_iff.1 he))] at hq
      have hlen : ((vals.filterMap id).length : ℚ) ≠ 0 := by
        have : vals.filterMap id ≠ [] := h
        have hpos : 0 < (vals.filterMap id).length := List.length_pos.2 this
        exact_mod_cast hpos.ne'
      have hval : (vals.filterMap id).sum / (vals.filterMap id).length = q :=
        Option.some.inj hq
      rw [← hval, div_mul_cancel₀ _ hlen]

/-- Witness for C6 at the row `[1, missing]`. -/
theorem mean_scores_average_present_values_witness :
    (1 : ℚ) * (([some 1, none] : List (Option ℚ)).filterMap id).length =
      (([some 1, none] : List (Option ℚ)).filterMap id).sum :=
  (mean_scores_average_present_values).2.1 [some 1, none] 1 (by with_unfolding_all rfl)

/-- Claim C9: reverse-coding (`max + min - value`) applied twice with the
same bounds restores every value (missing included), the reverse-coding
phase is a no-op when either item bound is unset even for designated items,
and with both bounds set a designated item is actually reverse-coded. -/
theorem reverse_coding_self_inverse :
    (∀ mn mx : ℚ, ∀ v : Option ℚ, reverseValue mn mx (reverseValue mn mx v) = v) ∧
    (∀ d : ScaleDefinition, ∀ items : List String, ∀ vals : List (List (Option ℚ)),
      d.min_item = none ∨ d.max_item = none → reverseValues d items vals = vals) ∧
    reverseValues revDef ["i1", "i2"] [[some 1, some 3]] = [[some 2, some 3]] := by
  refine ⟨?_, ?_, by with_unfolding_all rfl⟩
  · intro mn mx v
    cases v with
    | none => rfl
    | some x =>
      simp only [reverseValue, Option.map_some', Option.some.injEq]
      ring
  · intro d items vals h
    have hstep : ∀ vs col, reverseStep d items vs col = vs := by
      intro vs col
      unfold reverseStep
      rcases h with h | h
      · rw [h]
        cases d.max_item <;> rfl
      · rw [h]
    have hfold : ∀ (cols : List String) (vs : List (List (Option ℚ))),
        List.foldl (reverseStep d items) vs cols = vs := by
      intro cols
      induction cols with
      | nil => intro vs; rfl
      | cons c t ih =>
        intro vs
        rw [List.foldl_cons, hstep vs c]
        exact ih vs
    unfold reverseValues
    cases d.reverse with
    | none => rfl
    | some cols => exact hfold cols vals

/-- Witness for C9: a designated reverse item with only the upper bound set
is left untouched. -/
theorem reverse_coding_self_inverse_witness :
    reverseValues noBoundDef ["i1"] [[some 5]] = [[some 5]] :=
  (reverse_coding_self_inverse).2.1 noBoundDef ["i1"] [[some 5]] (Or.inl rfl)

/-- Claim C10: the `sum` method scores every row with the sum of its present
values, so a row whose items are all missing receives the score `0` — and
in the appended output column that row holds the numeric cell `0`, not a
missing cell. -/
theorem sum_scores_zero_for_all_missing :
    (∀ vals : List (Option ℚ), rowScore "sum" vals = some (vals.filterMap id).sum) ∧
    (∀ vals : List (Option ℚ), (∀ v ∈ vals, v = none) → rowScore "sum" vals = some 0) ∧
    applyOneScale sumDef dfAllMissing =
      Except.ok ({ header := ["i1", "i2", "s_score"],
                   rows := [[Value.missing, Value.missing, Value.num 0]] },
        { name := "s", output_column := "s_score", method := "sum", cutoffs := none,
          items := ["i1", "i2"] }) := by
  refine ⟨fun vals => rfl, ?_, by with_unfolding_all rfl⟩
  intro vals h
  have hnil : vals.filterMap id = [] :=
    List.filterMap_eq_nil_iff.2 (fun a ha => by rw [h a ha]; rfl)
  show some (vals.filterMap id).sum = some 0
  rw [hnil]
  rfl

/-- Witness for C10 at an all-missing row. -/
theorem sum_scores_zero_for_all_missing_witness :
    rowScore "sum" [none, none] = some 0 :=
  (sum_scores_zero_for_all_missing).2.1 [none, none] (by decide)

/-- Claim C7: every flagged text column is dropped from the working dataset
and carried in the quarantine dataset unless allow-listed, in which case it
is flagged but retained; when every flagged column is allow-listed nothing
is quarantined (the quarantine dataset is absent and the dataset is
unchanged); and the concrete email column scenario produces exactly one
finding `email` with count 2, a working dataset without the column, and a
quarantine dataset holding it, while a dataset with nothing to flag yields
no findings and no quarantine dataset. -/
theorem scan_phi_columns_quarantine (df : DataFrame) (o : Option PhiOptions) :
    (∀ f ∈ (scan_phi_columns df o).2.1,
      (f.column ∉ allowListOf o →
        f.column ∉ (scan_phi_columns df o).1.header ∧
        ∃ q, (scan_phi_columns df o).2.2 = some q ∧ f.column ∈ q.header) ∧
      (f.column ∈ allowListOf o → f.column ∈ (scan_phi_columns df o).1.header)) ∧
    ((∀ f ∈ (scan_phi_columns df o).2.1, f.column ∈ allowListOf o) →
      (scan_phi_columns df o).2.2 = none ∧ (scan_phi_columns df o).1 = df) ∧
    scan_phi_columns dfPhi none =
      ({ header := ["id"], rows := [[Value.num 1], [Value.num 2]] },
       [{ column := "contact", matches_ := [("email", 2)] }],
       some { header := ["contact"],
              rows := [[Value.str "alice@x.com"], [Value.str "bob@y.com"]] }) ∧
    scan_phi_columns dfNum none = (dfNum, [], none) := by
  have hq1 : (scan_phi_columns df o).1 =
      (if (phiQuarantineCols df o).isEmpty then df
       else dropColumns df (phiQuarantineCols df o)) := rfl
  have hq2 : (scan_phi_columns df o).2.2 =
      (if (phiQuarantineCols df o).isEmpty then none
       else some (selectColumns df (phiQuarantineCols df o))) := rfl
  refine ⟨?_, ?_, by with_unfolding_all rfl, by with_unfolding_all rfl⟩
  · intro f hf
    replace hf : f ∈ phiFlagged df o := hf
    constructor
    · intro hallow
      have hqmem : f.column ∈ phiQuarantineCols df o := by
        unfold phiQuarantineCols
        refine List.mem_filter.2 ⟨List.mem_map.2 ⟨f, hf, rfl⟩, ?_⟩
        rw [Bool.not_eq_true']
        cases hcon : (allowListOf o).contains f.column
        · rfl
        · exact absurd (List.mem_of_elem_eq_true hcon) hallow
      have hqne : ¬((phiQuarantineCols df o).isEmpty = true) := by
        rw [List.isEmpty_iff]
        intro h0
        rw [h0] at hqmem
        exact List.not_mem_nil _ hqmem
      refine ⟨?_, selectColumns df (phiQuarantineCols df o), ?_, hqmem⟩
      · rw [hq1, if_neg hqne]
        simp only [dropColumns]
        intro hmem
        have h2 := (List.mem_filter.1 hmem).2
        rw [Bool.not_eq_true'] at h2
        have h3 : (phiQuarantineCols df o).contains f.column = true :=
          List.elem_eq_true_of_mem hqmem
        exact Bool.noConfusion (h3.symm.trans h2)
      · rw [hq2, if_neg hqne]
    · intro hallow
      have hnot : f.column ∉ phiQuarantineCols df o := by
        intro hmem
        have h2 := (List.mem_filter.1 hmem).2
        rw [Bool.not_eq_true'] at h2
        have h3 : (allowListOf o).contains f.column = true :=
          List.elem_eq_true_of_mem hallow
        exact Bool.noConfusion (h3.symm.trans h2)
      rw [hq1]
      by_cases hqe : (phiQuarantineCols df o).isEmpty = true
      · rw [if_pos hqe]
        exact phiFlagged_column_mem hf
      · rw [if_neg hqe]
        simp only [dropColumns]
        refine List.mem_filter.2 ⟨phiFlagged_column_mem hf, ?_⟩
        rw [Bool.not_eq_true']
        cases hcon : (phiQuarantineCols df o).contains f.column
        · rfl
        · exact absurd (List.mem_of_elem_eq_true hcon) hnot
  · intro hall
    have hempty : phiQuarantineCols df o = [] := by
      unfold phiQuarantineCols
      rw [List.filter_eq_nil_iff]
      intro a ha
      obtain ⟨f, hf, rfl⟩ := List.mem_map.1 ha
      intro hcon
      rw [Bool.not_eq_true'] at hcon
      have h3 : (allowListOf o).contains f.column = true :=
        List.elem_eq_true_of_mem (hall f hf)
      exact Bool.noConfusion (h3.symm.trans hcon)
    have he : (phiQuarantineCols df o).isEmpty = true := by rw [hempty]; rfl
    exact ⟨by rw [hq2, if_pos he], by rw [hq1, if_pos he]⟩

/-- Witness for C7: the concrete email column is dropped and quarantined. -/
theorem scan_phi_columns_quarantine_witness :
    "contact" ∉ (scan_phi_columns dfPhi none).1.header ∧
    ∃ q, (scan_phi_columns dfPhi none).2.2 = some q ∧ "contact" ∈ q.header :=
  ((scan_phi_columns_quarantine dfPhi none).1
    { column := "contact", matches_ := [("email", 2)] } (by decide)).1 (by decide)

/-- Claim C8: a missingness alert carrying the column, its percentage and
the threshold is emitted for exactly the columns whose (numeric) percentage
reaches the threshold, the comparison being inclusive: a column exactly at
the threshold alerts, one just below (9.99 against 10) does not. -/
theorem missing_alerts_inclusive_threshold :
    (∀ ps : List (String × Option ℚ), ∀ t : ℚ,
      missing_alerts ps t = ps.filterMap (fun p =>
        match p.2 with
        | none => none
        | some v =>
          if t ≤ v then some { column := p.1, percent := v, threshold := t }
          else none)) ∧
    (∀ t : ℚ, ∀ c : String,
      missing_alerts [(c, some t)] t = [{ column := c, percent := t, threshold := t }]) ∧
    missing_alerts [("x", some 10), ("y", some (mkRat 999 100))] 10 =
      [{ column := "x", percent := 10, threshold := 10 }] := by
  refine ⟨?_, ?_, by with_unfolding_all rfl⟩
  · intro ps t
    induction ps with
    | nil => rfl
    | cons p rest ih =>
      rw [List.filterMap_cons]
      obtain ⟨c, pct⟩ := p
      cases pct with
      | none => simpa [missing_alerts] using ih
      | some v =>
        by_cases h : t ≤ v
        · simp only [missing_alerts, if_pos h, ih]
        · simp only [missing_alerts, if_neg h, ih]
  · intro t c
    simp [missing_alerts, le_refl]
